import Mathlib

set_option maxRecDepth 100000

/-!
Shallow embedding of the ReBAC resolution core of the Conduit authorization
utilities: relation validation, tuple encoding, object-index construction,
the decision cache, and the two access-list query generators.  Each
definition mirrors one TypeScript source function; theorems settle the
specification claims about them.
-/

/-- ASCII-letter test, mirroring the character class `[a-zA-Z]` of the
regular expression used by `checkRelation`. -/
def isAsciiLetter (c : Char) : Bool :=
  (('A' ≤ c) && (c ≤ 'Z')) || (('a' ≤ c) && (c ≤ 'z'))

/-- Models the JavaScript test `/^[a-zA-Z]+$/.test(s)`: `s` is nonempty and
every character is an ASCII letter. -/
def testLetters (s : String) : Bool :=
  !s.data.isEmpty && s.data.all isAsciiLetter

/-- Models `s.includes(c)` of JavaScript for a single-character needle:
membership of the character in the string. -/
def includesChar (s : String) (c : Char) : Bool :=
  s.data.contains c

/-- Embeds `checkRelation` (src/unnamed/part_000, lines 4-18): four guards,
each throwing, then a bare return.  Thrown errors become `Except.error`. -/
def checkRelation (subject relation object : String) : Except String Unit :=
  if !(includesChar subject ':') then
    Except.error "Subject must be a valid resource identifier"
  else if !(includesChar object ':') then
    Except.error "Object must be a valid resource identifier"
  else if !(testLetters relation) then
    Except.error "Relation must be a plain string"
  else if subject == object then
    Except.error "Subject and object must be different"
  else
    Except.ok ()

/-- Embeds `computeRelationTuple`: the template literal
`<subject>#<relation>@<object>`. -/
def computeRelationTuple (subject relation object : String) : String :=
  subject ++ "#" ++ relation ++ "@" ++ object

/-- Embeds `computePermissionTuple`: the identical template literal. -/
def computePermissionTuple (subject relation object : String) : String :=
  subject ++ "#" ++ relation ++ "@" ++ object

/-- The predicate `testLetters` holds exactly when the string is nonempty
and every character is an ASCII letter. -/
theorem testLetters_iff (s : String) :
    testLetters s = true ↔ (s ≠ "" ∧ ∀ c ∈ s.data, isAsciiLetter c = true) := by
  unfold testLetters
  cases s
  simp [String.ext_iff, List.isEmpty_iff, List.all_eq_true]

/-- The predicate `testLetters` fails exactly when the string is empty or
some character is not an ASCII letter. -/
theorem testLetters_false_iff (s : String) :
    testLetters s = false ↔ (s = "" ∨ ∃ c ∈ s.data, isAsciiLetter c = false) := by
  rw [← Bool.not_eq_true, testLetters_iff]
  push_neg
  constructor
  · intro h
    by_cases he : s = ""
    · exact Or.inl he
    · rcases h he with ⟨c, hc, hcc⟩
      exact Or.inr ⟨c, hc, by simpa using hcc⟩
  · rintro (he | ⟨c, hc, hcc⟩) hne
    · exact absurd he hne
    · exact ⟨c, hc, by simpa using hcc⟩

/-- C3: `checkRelation` succeeds exactly when subject and object each contain
a colon, the relation is a nonempty string of ASCII letters, and subject and
object differ; it raises an error exactly when subject or object lacks a
colon, the relation is empty or has a non-letter character, or subject equals
object. -/
theorem checkRelation_spec (s r o : String) :
    (checkRelation s r o = Except.ok () ↔
      (includesChar s ':' = true ∧ includesChar o ':' = true ∧
        (r ≠ "" ∧ ∀ c ∈ r.data, isAsciiLetter c = true) ∧ s ≠ o))
    ∧ ((∃ msg, checkRelation s r o = Except.error msg) ↔
      (includesChar s ':' = false ∨ includesChar o ':' = false ∨
        r = "" ∨ (∃ c ∈ r.data, isAsciiLetter c = false) ∨ s = o)) := by
  have hT := testLetters_iff r
  have hF := testLetters_false_iff r
  cases h1 : includesChar s ':' <;> cases h2 : includesChar o ':' <;>
    cases h3 : testLetters r <;> by_cases h4 : s = o <;>
      simp_all [checkRelation, h1, h2, h3, h4]

/-- Witness for C3: a concrete accepted triple and a concrete rejected one. -/
theorem checkRelation_spec_witness :
    (checkRelation "user:1" "owner" "doc:42" = Except.ok ()) ∧
    (∃ msg, checkRelation "user1" "owner" "doc:42" = Except.error msg) :=
  ⟨(checkRelation_spec "user:1" "owner" "doc:42").1.mpr (by decide),
   (checkRelation_spec "user1" "owner" "doc:42").2.mpr (by decide)⟩

/-- C5: for every input triple the tuple encoders return exactly
`<subject>#<relation>@<object>`, deterministically (they are functions), and
the relation-tuple and permission-tuple encoders agree on every input. -/
theorem computeTuple_spec (subject relation object : String) :
    computeRelationTuple subject relation object
      = subject ++ "#" ++ relation ++ "@" ++ object
    ∧ computePermissionTuple subject relation object
      = subject ++ "#" ++ relation ++ "@" ++ object
    ∧ computeRelationTuple subject relation object
      = computePermissionTuple subject relation object := by
  exact ⟨rfl, rfl, rfl⟩

/-- Splits a character list at every occurrence of `c`, returning the first
segment and the remaining segments; mirrors JavaScript
`String.prototype.split` with a single-character separator. -/
def splitCharAux (c : Char) : List Char → List Char × List (List Char)
  | [] => ([], [])
  | x :: xs =>
    let r := splitCharAux c xs
    if x = c then ([], r.1 :: r.2) else (x :: r.1, r.2)

/-- All segments of a character list split at `c` (always nonempty, like the
array returned by JavaScript `split`). -/
def splitChar (c : Char) (l : List Char) : List (List Char) :=
  (splitCharAux c l).1 :: (splitCharAux c l).2

/-- Models `s.split(c)` of JavaScript for a single-character separator. -/
def jsSplit (s : String) (c : Char) : List String :=
  (splitChar c s.data).map fun l => ⟨l⟩

/-- Splitting a list that does not contain the separator yields the whole
list as the single segment. -/
theorem splitCharAux_not_mem (c : Char) (l : List Char) (h : c ∉ l) :
    splitCharAux c l = (l, []) := by
  induction l with
  | nil => rfl
  | cons x xs ih =>
    have hx : x ≠ c := fun hxc => h (hxc ▸ List.mem_cons_self x xs)
    have hxs : c ∉ xs := fun hm => h (List.mem_cons_of_mem x hm)
    simp [splitCharAux, hx, ih hxs]

/-- Splitting `t ++ c :: l` where `t` is separator-free peels off `t` as the
first segment. -/
theorem splitCharAux_append (c : Char) (t l : List Char) (h : c ∉ t) :
    splitCharAux c (t ++ c :: l) = (t, splitChar c l) := by
  induction t with
  | nil => simp [splitCharAux, splitChar]
  | cons x xs ih =>
    have hx : x ≠ c := fun hxc => h (hxc ▸ List.mem_cons_self x xs)
    have hxs : c ∉ xs := fun hm => h (List.mem_cons_of_mem x hm)
    simp [splitCharAux, hx, ih hxs]

/-- Segment form of `splitCharAux_append`. -/
theorem splitChar_append (c : Char) (t l : List Char) (h : c ∉ t) :
    splitChar c (t ++ c :: l) = t :: splitChar c l := by
  simp [splitChar, splitCharAux_append c t l h]

/-- The first split segment of a string whose data starts with a
separator-free block followed by the separator. -/
theorem jsSplit_head (s : String) (c : Char) (t rest : List Char)
    (hs : s.data = t ++ c :: rest) (h : c ∉ t) :
    (jsSplit s c).get? 0 = some ⟨t⟩ := by
  simp [jsSplit, hs, splitChar_append c t rest h]

/-- The second split segment when the string has at least two separators. -/
theorem jsSplit_second (s : String) (c : Char) (t i rest : List Char)
    (hs : s.data = t ++ c :: (i ++ c :: rest)) (ht : c ∉ t) (hi : c ∉ i) :
    (jsSplit s c).get? 1 = some ⟨i⟩ := by
  have h1 := splitCharAux_append c t (i ++ c :: rest) ht
  have h2 := splitCharAux_append c i rest hi
  simp [jsSplit, hs, splitChar, h1, h2]

/-- The second split segment when the string has exactly one separator. -/
theorem jsSplit_second_last (s : String) (c : Char) (t i : List Char)
    (hs : s.data = t ++ c :: i) (ht : c ∉ t) (hi : c ∉ i) :
    (jsSplit s c).get? 1 = some ⟨i⟩ := by
  have h1 := splitCharAux_append c t i ht
  have h2 := splitCharAux_not_mem c i hi
  simp [jsSplit, hs, splitChar, h1, h2]

/-- The object-index record produced by `constructObjectIndex`.  Fields read
from a split result are optional, matching the `Partial<ObjectIndex>` return
type: `split(':')[1]` is `undefined` when the string has no colon. -/
structure ObjectIndex where
  subject : String
  subjectId : Option String
  subjectType : Option String
  subjectPermission : String
  entity : String
  entityId : Option String
  entityType : Option String
  relation : String
  inheritanceTree : List String
deriving DecidableEq

/-- Embeds `constructObjectIndex` (src/unnamed/part_000, lines 36-55):
wildcard detection and field-by-field construction. -/
def constructObjectIndex (subject permission role object : String)
    (inheritanceTree : List String) : ObjectIndex :=
  let wildcard := role = "*" ∨ object = "*"
  { subject := subject ++ "#" ++ permission
    subjectId := (jsSplit subject ':').get? 1
    subjectType := (jsSplit subject ':').get? 0
    subjectPermission := permission
    entity := if wildcard then "*" else object ++ "#" ++ role
    entityId := if wildcard then some "*" else (jsSplit object ':').get? 1
    entityType := if wildcard then some "*" else (jsSplit object ':').get? 0
    relation := if wildcard then "*" else role
    inheritanceTree := inheritanceTree }

/-- C1 counterexample: for subject `user:abc:def` the code's
`split(':')[1]` keeps only the second colon-delimited segment `abc`; the id
part does not keep further colons, so `subjectId` is not `abc:def` as the
claim requires. -/
theorem constructObjectIndex_first_colon_only_false :
    (constructObjectIndex "user:abc:def" "read" "role" "doc:1" []).subjectId
        = some "abc"
    ∧ (constructObjectIndex "user:abc:def" "read" "role" "doc:1" []).subjectId
        ≠ some "abc:def" := by
  constructor
  · rfl
  · decide

/-- C1 amended: `constructObjectIndex` derives the (type, id) pair by
splitting on every colon and keeping segments 0 and 1: the type is the text
before the first colon and the id is the text between the first and second
colons, with anything after a further colon dropped; likewise for
entityType/entityId of a non-wildcard object. -/
theorem constructObjectIndex_split_segments
    (subj permission role obj : String) (tree : List String)
    (tS iS restS tO iO restO : List Char)
    (hsubj : subj.data = tS ++ ':' :: (iS ++ ':' :: restS))
    (hobjd : obj.data = tO ++ ':' :: (iO ++ ':' :: restO))
    (htS : ':' ∉ tS) (hiS : ':' ∉ iS)
    (htO : ':' ∉ tO) (hiO : ':' ∉ iO) (hrole : role ≠ "*") :
    (constructObjectIndex subj permission role obj tree).subjectType = some ⟨tS⟩
    ∧ (constructObjectIndex subj permission role obj tree).subjectId = some ⟨iS⟩
    ∧ (constructObjectIndex subj permission role obj tree).entityType = some ⟨tO⟩
    ∧ (constructObjectIndex subj permission role obj tree).entityId = some ⟨iO⟩ := by
  have hobj : obj ≠ "*" := by
    intro h
    rw [h] at hobjd
    have : ':' ∈ ("*" : String).data := by
      rw [hobjd]
      simp
    simp at this
  have hw : ¬(role = "*" ∨ obj = "*") := by
    rintro (h | h)
    · exact hrole h
    · exact hobj h
  refine ⟨?_, ?_, ?_, ?_⟩
  · exact jsSplit_head subj ':' tS _ hsubj htS
  · exact jsSplit_second subj ':' tS iS restS hsubj htS hiS
  · show (if role = "*" ∨ obj = "*" then some "*"
      else (jsSplit obj ':').get? 0) = some ⟨tO⟩
    rw [if_neg hw]
    exact jsSplit_head obj ':' tO _ hobjd htO
  · show (if role = "*" ∨ obj = "*" then some "*"
      else (jsSplit obj ':').get? 1) = some ⟨iO⟩
    rw [if_neg hw]
    exact jsSplit_second obj ':' tO iO restO hobjd htO hiO

/-- Witness for the amended C1 at subject `user:abc:def` and object
`doc:1:2`. -/
theorem constructObjectIndex_split_segments_witness :
    (constructObjectIndex "user:abc:def" "read" "viewer" "doc:1:2" ["a"]).subjectType
        = some "user"
    ∧ (constructObjectIndex "user:abc:def" "read" "viewer" "doc:1:2" ["a"]).subjectId
        = some "abc"
    ∧ (constructObjectIndex "user:abc:def" "read" "viewer" "doc:1:2" ["a"]).entityType
        = some "doc"
    ∧ (constructObjectIndex "user:abc:def" "read" "viewer" "doc:1:2" ["a"]).entityId
        = some "1" := by
  exact constructObjectIndex_split_segments
    "user:abc:def" "read" "viewer" "doc:1:2" ["a"]
    "user".data "abc".data "def".data "doc".data "1".data "2".data
    (by decide) (by decide) (by decide) (by decide) (by decide) (by decide)
    (by decide)

/-- C4: when `role` or `object` is the wildcard `*`, the entity-side fields
`entity`, `entityId`, `entityType`, `relation` are all the literal `*`
regardless of the other inputs; otherwise they take the concrete composite
forms built from `object` and `role`. -/
theorem constructObjectIndex_wildcard_spec :
    (∀ (s p role obj : String) (tree : List String),
      (role = "*" ∨ obj = "*") →
      let e := constructObjectIndex s p role obj tree
      e.entity = "*" ∧ e.entityId = some "*" ∧
      e.entityType = some "*" ∧ e.relation = "*")
    ∧ (∀ (s p role : String) (tree : List String) (tO iO : List Char),
      role ≠ "*" → ':' ∉ tO → ':' ∉ iO →
      let obj : String := ⟨tO ++ ':' :: iO⟩
      let e := constructObjectIndex s p role obj tree
      e.entity = obj ++ "#" ++ role ∧ e.relation = role ∧
      e.entityType = some ⟨tO⟩ ∧ e.entityId = some ⟨iO⟩) := by
  constructor
  · intro s p role obj tree h e
    refine ⟨?_, ?_, ?_, ?_⟩ <;> simp [e, constructObjectIndex, h]
  · intro s p role tree tO iO hrole htO hiO obj e
    have hobj : obj ≠ "*" := by
      intro h
      have : ':' ∈ obj.data := by
        show ':' ∈ tO ++ ':' :: iO
        simp
      rw [h] at this
      simp at this
    have hw : ¬(role = "*" ∨ obj = "*") := by
      rintro (h | h)
      · exact hrole h
      · exact hobj h
    refine ⟨?_, ?_, ?_, ?_⟩
    · show (if role = "*" ∨ obj = "*" then "*" else obj ++ "#" ++ role)
        = obj ++ "#" ++ role
      exact if_neg hw
    · show (if role = "*" ∨ obj = "*" then "*" else role) = role
      exact if_neg hw
    · show (if role = "*" ∨ obj = "*" then some "*"
        else (jsSplit obj ':').get? 0) = some ⟨tO⟩
      rw [if_neg hw]
      exact jsSplit_head obj ':' tO _ rfl htO
    · show (if role = "*" ∨ obj = "*" then some "*"
        else (jsSplit obj ':').get? 1) = some ⟨iO⟩
      rw [if_neg hw]
      exact jsSplit_second_last obj ':' tO iO rfl htO hiO

/-- Witness for C4: the wildcard case at `role = *` and a concrete
non-wildcard case. -/
theorem constructObjectIndex_wildcard_spec_witness :
    ((constructObjectIndex "user:1" "read" "*" "doc:42" []).entity = "*"
      ∧ (constructObjectIndex "user:1" "read" "*" "doc:42" []).entityId = some "*"
      ∧ (constructObjectIndex "user:1" "read" "*" "doc:42" []).entityType = some "*"
      ∧ (constructObjectIndex "user:1" "read" "*" "doc:42" []).relation = "*")
    ∧ ((constructObjectIndex "user:1" "read" "viewer" "doc:42" []).entity
        = "doc:42" ++ "#" ++ "viewer"
      ∧ (constructObjectIndex "user:1" "read" "viewer" "doc:42" []).relation = "viewer"
      ∧ (constructObjectIndex "user:1" "read" "viewer" "doc:42" []).entityType = some "doc"
      ∧ (constructObjectIndex "user:1" "read" "viewer" "doc:42" []).entityId = some "42") := by
  constructor
  · exact constructObjectIndex_wildcard_spec.1 "user:1" "read" "*" "doc:42" []
      (Or.inl rfl)
  · exact constructObjectIndex_wildcard_spec.2 "user:1" "read" "viewer" []
      "doc".data "42".data (by decide) (by decide) (by decide)

/-- C9: the subject-side outputs of `constructObjectIndex` depend only on
`subject` and `permission`, and `inheritanceTree` is passed through
unchanged: two calls agreeing on those inputs but differing arbitrarily in
`role` and `object` produce identical `subject`, `subjectId`, `subjectType`,
`subjectPermission`, and `inheritanceTree` fields. -/
theorem constructObjectIndex_subject_frame
    (s p : String) (tree : List String) (role1 obj1 role2 obj2 : String) :
    (constructObjectIndex s p role1 obj1 tree).subject
        = (constructObjectIndex s p role2 obj2 tree).subject
    ∧ (constructObjectIndex s p role1 obj1 tree).subjectId
        = (constructObjectIndex s p role2 obj2 tree).subjectId
    ∧ (constructObjectIndex s p role1 obj1 tree).subjectType
        = (constructObjectIndex s p role2 obj2 tree).subjectType
    ∧ (constructObjectIndex s p role1 obj1 tree).subjectPermission
        = (constructObjectIndex s p role2 obj2 tree).subjectPermission
    ∧ (constructObjectIndex s p role1 obj1 tree).inheritanceTree
        = (constructObjectIndex s p role2 obj2 tree).inheritanceTree
    ∧ (constructObjectIndex s p role1 obj1 tree).subject = s ++ "#" ++ p
    ∧ (constructObjectIndex s p role1 obj1 tree).subjectPermission = p
    ∧ (constructObjectIndex s p role1 obj1 tree).inheritanceTree = tree :=
  ⟨rfl, rfl, rfl, rfl, rfl, rfl, rfl, rfl⟩

/-- An identifier free of the reserved tuple separators `#` and `@`. -/
def cleanId (s : String) : Prop := '#' ∉ s.data ∧ '@' ∉ s.data

/-- Lists that agree on the text around the first occurrence of a separator
agree on both sides, provided the left parts are separator-free. -/
theorem sep_append_inj (c : Char) :
    ∀ (a1 a2 b1 b2 : List Char), c ∉ a1 → c ∉ a2 →
      a1 ++ c :: b1 = a2 ++ c :: b2 → a1 = a2 ∧ b1 = b2 := by
  intro a1
  induction a1 with
  | nil =>
    intro a2 b1 b2 _ h2 heq
    cases a2 with
    | nil => simpa using heq
    | cons y ys =>
      simp at heq
      exact absurd (heq.1 ▸ List.mem_cons_self y ys) h2
  | cons x xs ih =>
    intro a2 b1 b2 h1 h2 heq
    cases a2 with
    | nil =>
      simp at heq
      exact absurd (heq.1 ▸ List.mem_cons_self x xs) h1
    | cons y ys =>
      simp at heq
      have hxs : c ∉ xs := fun hm => h1 (List.mem_cons_of_mem x hm)
      have hys : c ∉ ys := fun hm => h2 (List.mem_cons_of_mem y hm)
      rcases ih ys b1 b2 hxs hys heq.2 with ⟨hA, hB⟩
      exact ⟨by rw [heq.1, hA], hB⟩

/-- Character data of an encoded tuple. -/
theorem tuple_data (s r o : String) :
    (computeRelationTuple s r o).data
      = s.data ++ '#' :: (r.data ++ '@' :: o.data) := by
  simp [computeRelationTuple, String.data_append]

/-- C8: on identifiers free of `#` and `@` the tuple encoding is injective;
without that restriction injectivity fails: two distinct triples, one with a
`#` inside its subject, encode to the same string. -/
theorem computeTuple_injectivity :
    (∀ s1 r1 o1 s2 r2 o2 : String,
      cleanId s1 → cleanId r1 → cleanId o1 →
      cleanId s2 → cleanId r2 → cleanId o2 →
      computeRelationTuple s1 r1 o1 = computeRelationTuple s2 r2 o2 →
      s1 = s2 ∧ r1 = r2 ∧ o1 = o2)
    ∧ (∃ s1 r1 o1 s2 r2 o2 : String,
      ¬cleanId s1 ∧ (s1, r1, o1) ≠ (s2, r2, o2) ∧
      computeRelationTuple s1 r1 o1 = computeRelationTuple s2 r2 o2) := by
  constructor
  · intro s1 r1 o1 s2 r2 o2 hs1 hr1 _ hs2 hr2 _ heq
    have hdata := congrArg String.data heq
    rw [tuple_data, tuple_data] at hdata
    rcases sep_append_inj '#' s1.data s2.data _ _ hs1.1 hs2.1 hdata with ⟨hS, hrest⟩
    rcases sep_append_inj '@' r1.data r2.data _ _ hr1.2 hr2.2 hrest with ⟨hR, hO⟩
    exact ⟨String.ext hS, String.ext hR, String.ext hO⟩
  · refine ⟨"a#b", "c", "d", "a", "b#c", "d", ?_, ?_, ?_⟩
    · intro h
      exact absurd h.1 (by decide)
    · decide
    · rfl

/-- Witness for C8 at a concrete separator-free triple. -/
theorem computeTuple_injectivity_witness :
    ("user:1" = "user:1" ∧ "read" = "read" ∧ "doc:2" = "doc:2") :=
  computeTuple_injectivity.1 "user:1" "read" "doc:2" "user:1" "read" "doc:2"
    ⟨by decide, by decide⟩ ⟨by decide, by decide⟩ ⟨by decide, by decide⟩
    ⟨by decide, by decide⟩ ⟨by decide, by decide⟩ ⟨by decide, by decide⟩ rfl


/-- A stored key-value record of the external cache service: value plus the
write time and expiry used to decide staleness. -/
structure KVEntry where
  key : String
  value : String
  storedAt : Nat
  ttl : Nat
deriving DecidableEq

/-- Modelled from the spec: the external key-value service (an out-of-scope
collaborator reached through `grpcSdk.state`, absent from src/), exposing
`setWithExpiry(key, value, ttlMs)` and `get(key) -> value | absent`; `log`
records every write issued to it. -/
structure KVState where
  entries : List KVEntry
  log : List KVEntry
deriving DecidableEq

/-- Modelled from the spec: `setWithExpiry` of the key-value service; the
write overwrites any existing entry for the key and is appended to the
write log. -/
def KVState.setKey (st : KVState) (k v : String) (ttl now : Nat) : KVState :=
  { entries := ⟨k, v, now, ttl⟩ :: st.entries.filter (fun e => !(e.key == k))
    log := st.log ++ [⟨k, v, now, ttl⟩] }

/-- Modelled from the spec: `get` of the key-value service; an entry whose
TTL has elapsed is absent. -/
def KVState.getKey (st : KVState) (k : String) (now : Nat) : Option String :=
  match st.entries.find? (fun e => e.key == k) with
  | none => none
  | some e => if now < e.storedAt + e.ttl then some e.value else none

/-- Embeds `RuleCache.storeResolution`
(src/modules/authorization/src/controllers/cache.controller.ts): one
`setKey` under `ruleCache:<computedTuple>` with the serialized boolean and a
2000 ms TTL. -/
def storeResolution (st : KVState) (computedTuple : String) (decision : Bool)
    (now : Nat) : KVState :=
  st.setKey ("ruleCache:" ++ computedTuple)
    (if decision then "true" else "false") 2000 now

/-- Embeds `RuleCache.findResolution`: `getKey` under
`ruleCache:<computedTuple>`, then `value === \x27true\x27` on a present
value and `null` (here `none`) on an absent one. -/
def findResolution (st : KVState) (computedTuple : String) (now : Nat) :
    Option Bool :=
  match st.getKey ("ruleCache:" ++ computedTuple) now with
  | some value => some (value == "true")
  | none => none

/-- Finding by one key is unaffected by filtering away a different key. -/
theorem find?_filter_ne (l : List KVEntry) (k k' : String) (h : k ≠ k') :
    (l.filter (fun e => !(e.key == k'))).find? (fun e => e.key == k)
      = l.find? (fun e => e.key == k) := by
  induction l with
  | nil => rfl
  | cons e es ih =>
    by_cases hk' : e.key = k'
    · have h1 : (!(e.key == k')) = false := by simp [hk']
      have hek : e.key ≠ k := fun hh => h (hh.symm.trans hk')
      have h2 : (e.key == k) = false := by simp [hek]
      simp [List.filter_cons, h1, List.find?_cons, h2, ih]
    · have h1 : (!(e.key == k')) = true := by simp [hk']
      by_cases hk : e.key = k
      · have h2 : (e.key == k) = true := by simp [hk]
        simp [List.filter_cons, h1, List.find?_cons, h2]
      · have h2 : (e.key == k) = false := by simp [hk]
        simp [List.filter_cons, h1, List.find?_cons, h2, ih]

/-- C7: `storeResolution` issues exactly one write, under key
`ruleCache:<computedTuple>` with value `true`/`false` and expiry exactly
2000 ms, overwriting any existing entry for that key and leaving every other
key untouched. -/
theorem storeResolution_spec (st : KVState) (t : String) (d : Bool) (now : Nat) :
    ((storeResolution st t d now).log
        = st.log ++ [⟨"ruleCache:" ++ t, if d then "true" else "false", now, 2000⟩])
    ∧ ((storeResolution st t d now).entries.find? (fun e => e.key == "ruleCache:" ++ t)
        = some ⟨"ruleCache:" ++ t, if d then "true" else "false", now, 2000⟩)
    ∧ (∀ k, k ≠ "ruleCache:" ++ t →
        (storeResolution st t d now).entries.find? (fun e => e.key == k)
          = st.entries.find? (fun e => e.key == k)) := by
  refine ⟨rfl, ?_, ?_⟩
  · simp [storeResolution, KVState.setKey, List.find?_cons]
  · intro k hk
    have hne : ("ruleCache:" ++ t) ≠ k := fun hh => hk hh.symm
    have h2 : ((("ruleCache:" ++ t) : String) == k) = false := by simp [hne]
    simp [storeResolution, KVState.setKey, List.find?_cons, h2,
      find?_filter_ne st.entries k ("ruleCache:" ++ t) hk]

/-- C6: cache lookup is tri-state: a never-stored key and an expired entry
both yield a miss (`none`), distinct from a stored `false`; a store followed
by a lookup within the 2000 ms window yields the stored decision, for both
`true` and `false`. -/
theorem ruleCache_tristate :
    (∀ (st : KVState) (t : String) (now : Nat),
      (∀ e ∈ st.entries, e.key ≠ "ruleCache:" ++ t) →
      findResolution st t now = none)
    ∧ (∀ (st : KVState) (t : String) (d : Bool) (t0 now : Nat),
      now < t0 + 2000 →
      findResolution (storeResolution st t d t0) t now = some d)
    ∧ (∀ (st : KVState) (t : String) (d : Bool) (t0 now : Nat),
      t0 + 2000 ≤ now →
      findResolution (storeResolution st t d t0) t now = none) := by
  refine ⟨?_, ?_, ?_⟩
  · intro st t now h
    have : st.entries.find? (fun e => e.key == "ruleCache:" ++ t) = none := by
      rw [List.find?_eq_none]
      intro e he
      simp [h e he]
    simp [findResolution, KVState.getKey, this]
  · intro st t d t0 now h
    cases d <;>
      simp [findResolution, storeResolution, KVState.getKey, KVState.setKey,
        List.find?_cons, h]
  · intro st t d t0 now h
    have : ¬(now < t0 + 2000) := by omega
    simp [findResolution, storeResolution, KVState.getKey, KVState.setKey,
      List.find?_cons, this]

/-- Witness for C6 at a concrete store and concrete times. -/
theorem ruleCache_tristate_witness :
    findResolution ⟨[], []⟩ "t" 5 = none
    ∧ findResolution (storeResolution ⟨[], []⟩ "t" true 100) "t" 150 = some true
    ∧ findResolution (storeResolution ⟨[], []⟩ "t" false 100) "t" 150 = some false
    ∧ findResolution (storeResolution ⟨[], []⟩ "t" true 100) "t" 2100 = none := by
  refine ⟨?_, ?_, ?_, ?_⟩
  · exact ruleCache_tristate.1 ⟨[], []⟩ "t" 5 (by simp)
  · exact ruleCache_tristate.2.1 ⟨[], []⟩ "t" true 100 150 (by norm_num)
  · exact ruleCache_tristate.2.1 ⟨[], []⟩ "t" false 100 150 (by norm_num)
  · exact ruleCache_tristate.2.2 ⟨[], []⟩ "t" true 100 2100 (by norm_num)

/-- Witness for C7 at a concrete store. -/
theorem storeResolution_spec_witness :
    ((storeResolution ⟨[], []⟩ "t" true 7).log
        = ([] : List KVEntry)
            ++ [⟨"ruleCache:" ++ "t", if true then "true" else "false", 7, 2000⟩])
    ∧ ((storeResolution ⟨[], []⟩ "t" true 7).entries.find?
        (fun e => e.key == "ruleCache:" ++ "t")
        = some ⟨"ruleCache:" ++ "t", if true then "true" else "false", 7, 2000⟩)
    ∧ ((storeResolution ⟨[], []⟩ "t" true 7).entries.find?
        (fun e => e.key == "other")
        = (⟨[], []⟩ : KVState).entries.find? (fun e => e.key == "other")) :=
  ⟨(storeResolution_spec ⟨[], []⟩ "t" true 7).1,
   (storeResolution_spec ⟨[], []⟩ "t" true 7).2.1,
   (storeResolution_spec ⟨[], []⟩ "t" true 7).2.2 "other" (by decide)⟩

/-- C10: deserialization is exact string comparison: a present value `v`
yields `some true` exactly when `v` is the string `true`; any other present
value yields `some false`. -/
theorem findResolution_exact_string (st : KVState) (t : String) (now : Nat)
    (v : String) (h : st.getKey ("ruleCache:" ++ t) now = some v) :
    findResolution st t now = some (v == "true")
    ∧ (findResolution st t now = some true ↔ v = "true") := by
  constructor
  · simp [findResolution, h]
  · simp [findResolution, h]

/-- Witness for C10: the present value `True` (capitalized) is returned as
a hit with decision `false`, while `true` is a hit with decision `true`. -/
theorem findResolution_exact_string_witness :
    findResolution ⟨[⟨"ruleCache:x", "True", 0, 2000⟩], []⟩ "x" 0 = some false
    ∧ findResolution ⟨[⟨"ruleCache:x", "true", 0, 2000⟩], []⟩ "x" 0 = some true := by
  constructor
  · have h : (⟨[⟨"ruleCache:x", "True", 0, 2000⟩], []⟩ : KVState).getKey
        ("ruleCache:" ++ "x") 0 = some "True" := by decide
    have := (findResolution_exact_string _ "x" 0 "True" h).1
    simpa using this
  · have h : (⟨[⟨"ruleCache:x", "true", 0, 2000⟩], []⟩ : KVState).getKey
        ("ruleCache:" ++ "x") 0 = some "true" := by decide
    have := (findResolution_exact_string _ "x" 0 "true" h).1
    simpa using this


/-- Embeds `getPostgresAccessListQuery` (src/unnamed/part_000, lines
67-92): the quoted-identifier (Postgres) access-list template literal,
transcribed byte for byte with the interpolation holes as arguments. -/
def getPostgresAccessListQuery
    (objectTypeCollection computedTuple subject objectType action : String) :
    String :=
  "\n      SELECT s.*\n      FROM \x22"
    ++ objectTypeCollection
    ++ "\x22 as s\n               INNER JOIN ((SELECT obj.entity\n                            FROM (SELECT *\n                                  FROM \x22cnd_ActorIndex\x22\n                                  WHERE subject = \x27"
    ++ subject
    ++ "\x27) as actors\n                                     INNER JOIN (SELECT *\n                                                 FROM \x22cnd_ObjectIndex\x22\n                                                 WHERE \x22subjectType\x22 = \x27"
    ++ objectType
    ++ "\x27\n                                                   AND \x22subjectPermission\x22 = \x27"
    ++ action
    ++ "\x27) as obj\n                                                ON actors.entity = obj.entity OR obj.entity = \x27*\x27)\n                           UNION\n                           (SELECT \x22computedTuple\x22\n                            FROM \x22cnd_Permission\x22\n                            WHERE \x22computedTuple\x22 LIKE \x27"
    ++ computedTuple
    ++ "%\x27)) idx\n                          ON idx.entity LIKE \x27%\x27 || TEXT(s._id) || \x27%\x27\n  "

/-- Embeds `getSQLAccessListQuery` (src/unnamed/part_000, lines 104-125):
the bare-identifier (generic SQL) access-list template literal, transcribed
byte for byte with the interpolation holes as arguments. -/
def getSQLAccessListQuery
    (objectTypeCollection computedTuple subject objectType action : String) :
    String :=
  "SELECT "
    ++ objectTypeCollection
    ++ ".*\n          FROM "
    ++ objectTypeCollection
    ++ "\n                   INNER JOIN (SELECT *\n                               FROM cnd_Permission\n                               WHERE computedTuple LIKE \x27"
    ++ computedTuple
    ++ "%\x27) permissions\n                              ON permissions.computedTuple = \x27"
    ++ computedTuple
    ++ ":\x27 || "
    ++ objectTypeCollection
    ++ "._id\n                   INNER JOIN (SELECT *\n                               FROM cnd_ActorIndex\n                               WHERE subject = \x27"
    ++ subject
    ++ "\x27) actors ON 1 = 1\n                   INNER JOIN (SELECT *\n                               FROM cnd_ObjectIndex\n                               WHERE \x22subjectType\x22 = \x27"
    ++ objectType
    ++ "\x27\n                                 AND \x22subjectPermission\x22 = \x27"
    ++ action
    ++ "\x27) objects\n                              ON actors.entity = obj.entity OR obj.entity = \x27*\x27;"


/-- The first list is an initial segment of the second. -/
def leadsWith : List Char → List Char → Bool
  | [], _ => true
  | _ :: _, [] => false
  | p :: ps, x :: xs => p == x && leadsWith ps xs

/-- The pattern occurs contiguously somewhere in the list. -/
def occursIn (pat l : List Char) : Bool :=
  match l with
  | [] => leadsWith pat []
  | _ :: xs => leadsWith pat l || occursIn pat xs

/-- The pattern string occurs as a substring. -/
def strOccurs (pat s : String) : Bool := occursIn pat.data s.data




/-- C2 divergence, evaluated at a concrete input: both dialects reference
the four source relations and share the trailing-wildcard
`LIKE \x27<computedTuple>%\x27` pattern, and the Postgres dialect binds
`as obj` for the predicate `obj.entity`; but the bare-identifier dialect
aliases its object-index subquery `objects` while its final join predicate
references `obj.entity` — the alias `objects` is never used (no
`objects.entity` occurs), so the join predicate refers to an unbound
alias. -/
theorem sqlAccessListQuery_alias_divergence :
    (strOccurs ") objects"
      (getSQLAccessListQuery "docs" "user:1#read@doc" "user:1" "doc" "read") = true)
    ∧ (strOccurs "ON actors.entity = obj.entity OR obj.entity = \x27*\x27"
      (getSQLAccessListQuery "docs" "user:1#read@doc" "user:1" "doc" "read") = true)
    ∧ (strOccurs "objects.entity"
      (getSQLAccessListQuery "docs" "user:1#read@doc" "user:1" "doc" "read") = false)
    ∧ (strOccurs "cnd_ActorIndex"
      (getSQLAccessListQuery "docs" "user:1#read@doc" "user:1" "doc" "read") = true)
    ∧ (strOccurs "cnd_ObjectIndex"
      (getSQLAccessListQuery "docs" "user:1#read@doc" "user:1" "doc" "read") = true)
    ∧ (strOccurs "cnd_Permission"
      (getSQLAccessListQuery "docs" "user:1#read@doc" "user:1" "doc" "read") = true)
    ∧ (strOccurs "LIKE \x27user:1#read@doc%\x27"
      (getSQLAccessListQuery "docs" "user:1#read@doc" "user:1" "doc" "read") = true)
    ∧ (strOccurs "as obj"
      (getPostgresAccessListQuery "docs" "user:1#read@doc" "user:1" "doc" "read") = true)
    ∧ (strOccurs "obj.entity"
      (getPostgresAccessListQuery "docs" "user:1#read@doc" "user:1" "doc" "read") = true)
    ∧ (strOccurs "cnd_ActorIndex"
      (getPostgresAccessListQuery "docs" "user:1#read@doc" "user:1" "doc" "read") = true)
    ∧ (strOccurs "cnd_ObjectIndex"
      (getPostgresAccessListQuery "docs" "user:1#read@doc" "user:1" "doc" "read") = true)
    ∧ (strOccurs "cnd_Permission"
      (getPostgresAccessListQuery "docs" "user:1#read@doc" "user:1" "doc" "read") = true)
    ∧ (strOccurs "LIKE \x27user:1#read@doc%\x27"
      (getPostgresAccessListQuery "docs" "user:1#read@doc" "user:1" "doc" "read") = true) := by
  refine ⟨?_, ?_, ?_, ?_, ?_, ?_, ?_, ?_, ?_, ?_, ?_, ?_, ?_⟩ <;> rfl
